import Mathlib

/-!
# Verification of the evaluation engine of `german-consumer-queries`

Shallow embedding of the Go evaluation engine (fact flattener, pairwise
scorer, slot aggregator, ambiguity resolver, report builder, and the
balanced JSON-object extractor), together with proofs of the spec claims.

Modelling conventions:
* Go `map[string]bool` sets of fact strings become `Finset String`
  (order of map iteration is irrelevant: every loop below performs only
  commuting counter increments or set inserts).
* Go `float64` arithmetic is modelled exactly over `ℚ`; `math.Round`
  (half away from zero) coincides with Mathlib's `round` (half up) on the
  non-negative values produced here.
* Go `int`/`int64` counters that are only ever incremented become `Nat`;
  schema integers that may be negative become `Int`.
* `time.Time` is modelled as a `Nat` timestamp (`Before` is `<`,
  `Equal` is `=`).
* The numeric renderings `%.0f` and `%.1f` are modelled by explicit
  formatters; no claim depends on their half-way tie behaviour.
-/

/-- Schema type `Dates` (api/main.go). -/
structure Dates where
  checkin : String
  checkout : String
deriving DecidableEq

/-- Schema type `Guests` (api/main.go). -/
structure Guests where
  adults : Int
  children : Int
deriving DecidableEq

/-- Schema type `UiFilters` (api/main.go): the 18 named filter categories. -/
structure UiFilters where
  meals : List String
  ratings : List String
  hotelTypes : List String
  hotelfacilities : List String
  poolbeach : List String
  distanceBeach : List String
  travelGroup : List String
  stars : List String
  wellness : List String
  referenceDistance : List String
  flex : List String
  children : List String
  parking : List String
  freetime : List String
  certifications : List String
  hotelthemes : List String
  hotelBrand : List String
  hotelinformation : List String
deriving DecidableEq

/-- Schema type `ParseResponse` (api/main.go): the ParsedQuery record. -/
structure ParseResponse where
  location : String
  dates : Dates
  guests : Guests
  priceMaxEUR : ℚ
  starsMin : Int
  ratingMin : ℚ
  familyFriendly : Bool
  uiFilters : UiFilters
  unsupportedCriteria : List String
deriving DecidableEq

/-- `MultiParseResponse` (api/main.go): optional parse per provider. -/
structure MultiParseResponse where
  openai : Option ParseResponse
  claude : Option ParseResponse
deriving DecidableEq

/-- `StoredResult` (part_000): one logged run. -/
structure StoredResult where
  query : String
  response : MultiParseResponse
  latency : Int
  time : Nat
deriving DecidableEq

/-- `GroundTruthItem` (part_000). -/
structure GroundTruthItem where
  query : String
  truth : ParseResponse
  ambiguous : Bool
  acceptableInterpretation : List ParseResponse
deriving DecidableEq

/-- Rendering of Go `%t` (used for the `family_friendly` fact). -/
def fmtBool (b : Bool) : String := if b then "true" else "false"

/-- Rendering of Go `%.0f` (price): round to an integer and print it. -/
def fmtF0 (q : ℚ) : String := toString (round q : Int)

/-- Rendering of Go `%.1f` (rating): one fractional digit. -/
def fmtF1 (q : ℚ) : String :=
  toString ((round (q * 10) : Int) / 10) ++ "." ++ toString ((round (q * 10) : Int) % 10)

/-- A fact string `slot=value`.  The Go source writes these by string
concatenation (`"location=" + p.Location`, `prefix + "=" + v`, ...);
all of them have this shape. -/
def fact (slot v : String) : String := slot ++ "=" ++ v

/-- `slotNameOf` (part_000): the part of a fact before its first `=`.
Go returns `k[:i]` when `IndexByte(k, '=') = i > 0` and `k` otherwise;
equivalently, the maximal `=`-free prefix of `k`, except that `k` itself
is returned when that prefix is empty. -/
def slotNameOf (k : String) : String :=
  let t := k.data.takeWhile (fun c => c ≠ '=')
  if t.isEmpty then k else ⟨t⟩

/-- Go `strings.TrimSpace`, modelled structurally on the character list:
drop whitespace from both ends. -/
def strTrim (s : String) : String :=
  ⟨((s.data.dropWhile Char.isWhitespace).reverse.dropWhile Char.isWhitespace).reverse⟩

/-- The body of `addSlice` inside `flatten` (part_000): fold the tag list
into the fact set, inserting `pre ++ "=" ++ strTrim v` for each non-blank
tag `v`. -/
def addSlice (s : Finset String) (pre : String) (arr : List String) : Finset String :=
  arr.foldl (fun s v => let v := strTrim v; if v ≠ "" then insert (fact pre v) s else s) s

/-- `flatten` (part_000): a ParsedQuery's canonical fact set.  The Go map
insertions become `Finset.insert`; empty/zero scalars are omitted and the
`family_friendly` fact is always emitted. -/
def flatten (p : ParseResponse) : Finset String :=
  let s : Finset String := ∅
  let s := if p.location ≠ "" then insert (fact "location" p.location) s else s
  let s := if p.dates.checkin ≠ "" then insert (fact "dates.checkin" p.dates.checkin) s else s
  let s := if p.dates.checkout ≠ "" then insert (fact "dates.checkout" p.dates.checkout) s else s
  let s := if p.guests.adults ≠ 0 then insert (fact "guests.adults" (toString p.guests.adults)) s else s
  let s := if p.guests.children ≠ 0 then insert (fact "guests.children" (toString p.guests.children)) s else s
  let s := if p.priceMaxEUR ≠ 0 then insert (fact "price_max_eur" (fmtF0 p.priceMaxEUR)) s else s
  let s := if p.starsMin ≠ 0 then insert (fact "stars_min" (toString p.starsMin)) s else s
  let s := if p.ratingMin ≠ 0 then insert (fact "rating_min" (fmtF1 p.ratingMin)) s else s
  let s := insert (fact "family_friendly" (fmtBool p.familyFriendly)) s
  let s := addSlice s "ui.meals" p.uiFilters.meals
  let s := addSlice s "ui.ratings" p.uiFilters.ratings
  let s := addSlice s "ui.hotelTypes" p.uiFilters.hotelTypes
  let s := addSlice s "ui.hotelfacilities" p.uiFilters.hotelfacilities
  let s := addSlice s "ui.poolbeach" p.uiFilters.poolbeach
  let s := addSlice s "ui.distanceBeach" p.uiFilters.distanceBeach
  let s := addSlice s "ui.travelGroup" p.uiFilters.travelGroup
  let s := addSlice s "ui.stars" p.uiFilters.stars
  let s := addSlice s "ui.wellness" p.uiFilters.wellness
  let s := addSlice s "ui.reference_distance_max" p.uiFilters.referenceDistance
  let s := addSlice s "ui.flex" p.uiFilters.flex
  let s := addSlice s "ui.children" p.uiFilters.children
  let s := addSlice s "ui.parking" p.uiFilters.parking
  let s := addSlice s "ui.freetime" p.uiFilters.freetime
  let s := addSlice s "ui.certifications" p.uiFilters.certifications
  let s := addSlice s "ui.hotelthemes" p.uiFilters.hotelthemes
  let s := addSlice s "ui.hotelBrand" p.uiFilters.hotelBrand
  let s := addSlice s "ui.hotelinformation" p.uiFilters.hotelinformation
  -- the `unsupported_criteria` loop in the source is exactly the
  -- `addSlice` body with prefix "unsupported"
  addSlice s "unsupported" p.unsupportedCriteria

/-- `flattenWithSlots` (part_000): identical to `flatten`; fact keys
already retain their slot path. -/
def flattenWithSlots (p : ParseResponse) : Finset String := flatten p

/-- `setsEqual` (part_000): same length and every key of `a` present in
`b`. -/
def setsEqual (a b : Finset String) : Bool :=
  decide (a.card = b.card ∧ a ⊆ b)

/-- `safeDiv` (part_000): integer ratio with the zero-denominator fallback. -/
def safeDiv (num den : Nat) : ℚ :=
  if den = 0 then 0 else (num : ℚ) / (den : ℚ)

/-- `harm` (part_000): harmonic mean with the zero-sum fallback. -/
def harm (p r : ℚ) : ℚ :=
  if p + r = 0 then 0 else 2 * p * r / (p + r)

/-- `round2` (part_000): `math.Round(x*100)/100`. -/
def round2 (x : ℚ) : ℚ := (round (x * 100) : ℚ) / 100

/-- `QueryScores` (part_000). -/
structure QueryScores where
  exactMatch : Bool
  jaccard : ℚ
  f1 : ℚ
  latencyMS : Int
deriving DecidableEq

/-- The set-level body of `scoreAgainstGT` (part_000), i.e. everything
after the two `flatten` calls. -/
def scoreSets (pSet gSet : Finset String) : QueryScores :=
  let inter := (pSet.filter (fun k => k ∈ gSet)).card
  let union := pSet.card + gSet.card - inter
  let prec := safeDiv inter pSet.card
  let rcl := safeDiv inter gSet.card
  let f1 := harm prec rcl
  let jac := if union > 0 then (inter : ℚ) / (union : ℚ) else 0
  { exactMatch := setsEqual pSet gSet
    jaccard := round2 jac
    f1 := round2 f1
    latencyMS := 0 }

/-- `scoreAgainstGT` (part_000): flatten both sides, then score the sets. -/
def scoreAgainstGT (pred gt : ParseResponse) : QueryScores :=
  scoreSets (flatten pred) (flatten gt)

/-- `matchesAnyAcceptable` (part_000). -/
def matchesAnyAcceptable (pred : ParseResponse) (accepts : List ParseResponse) : Bool :=
  if accepts.length = 0 then false
  else
    let pSet := flatten pred
    accepts.any (fun a => setsEqual pSet (flatten a))

/-- `SlotStats` (part_000): per-slot TP/FP/FN counters. -/
structure SlotStats where
  tp : Nat
  fp : Nat
  fn : Nat
deriving DecidableEq

/-- `acc` (part_000): the per-provider accumulator.  The Go
`map[string]*SlotStats` (absent key = zero counters, `incSlot` creates
entries on demand) is modelled as a total function with zero default;
no claim concerns the set of present keys. -/
structure acc where
  tp : Nat
  fp : Nat
  fn : Nat
  sumExact : Nat
  sumJac : ℚ
  sumF1 : ℚ
  sumLat : ℚ
  n : Nat
  ambAccepted : Nat
  ambTotal : Nat
  slot : String → SlotStats

/-- `newAcc` (part_000). -/
def newAcc : acc :=
  { tp := 0, fp := 0, fn := 0, sumExact := 0, sumJac := 0, sumF1 := 0
    sumLat := 0, n := 0, ambAccepted := 0, ambTotal := 0
    slot := fun _ => ⟨0, 0, 0⟩ }

/-- `acc.add` (part_000): fold one query's scores and latency into the
running sums. -/
def acc.add (a : acc) (q : QueryScores) (latency : Int) : acc :=
  { a with
    sumExact := a.sumExact + (if q.exactMatch then 1 else 0)
    sumJac := a.sumJac + q.jaccard
    sumF1 := a.sumF1 + q.f1
    sumLat := a.sumLat + (latency : ℚ)
    n := a.n + 1 }

/-- `acc.addSlots` (part_000).  The source iterates the two fact maps and
calls `incSlot` once per fact; every step is a commuting counter
increment, so the loop's net effect on each counter is the number of
facts taking that branch, grouped by `slotNameOf`. -/
def acc.addSlots (a : acc) (pred gt : ParseResponse) : acc :=
  let pSet := flattenWithSlots pred
  let gSet := flattenWithSlots gt
  let tpFacts := pSet.filter (fun k => k ∈ gSet)
  let fpFacts := pSet.filter (fun k => k ∉ gSet)
  let fnFacts := gSet.filter (fun k => k ∉ pSet)
  { a with
    tp := a.tp + tpFacts.card
    fp := a.fp + fpFacts.card
    fn := a.fn + fnFacts.card
    slot := fun s =>
      { tp := (a.slot s).tp + (tpFacts.filter (fun k => slotNameOf k = s)).card
        fp := (a.slot s).fp + (fpFacts.filter (fun k => slotNameOf k = s)).card
        fn := (a.slot s).fn + (fnFacts.filter (fun k => slotNameOf k = s)).card } }

/-- One entry of the `PerSlot` map in `ProviderMetrics` (part_000); field
names follow the Go struct. -/
structure SlotScore where
  Precision : ℚ
  Recall : ℚ
  F1 : ℚ
  TP : Nat
  FP : Nat
  FN : Nat
deriving DecidableEq

/-- `ProviderMetrics` (part_000).  `perSlot` is the Go map modelled as a
total function (absent slots map to the all-zero score). -/
structure ProviderMetrics where
  slotPrecision : ℚ
  slotRecall : ℚ
  f1 : ℚ
  exactMatch : ℚ
  jaccard : ℚ
  avgLatencyMS : ℚ
  count : Nat
  ambiguityHandlingRate : ℚ
  perSlot : String → SlotScore

/-- `acc.metrics` (part_000): finalize the accumulator into a snapshot. -/
def acc.metrics (a : acc) : ProviderMetrics :=
  let prec := safeDiv a.tp (a.tp + a.fp)
  let rcl := safeDiv a.tp (a.tp + a.fn)
  let f1 := harm prec rcl
  let avgExact := if a.n > 0 then (a.sumExact : ℚ) / (a.n : ℚ) else 0
  let avgJac := if a.n > 0 then a.sumJac / (a.n : ℚ) else 0
  let avgLat := if a.n > 0 then a.sumLat / (a.n : ℚ) else 0
  let ambRate := if a.ambTotal > 0 then (a.ambAccepted : ℚ) / (a.ambTotal : ℚ) else 0
  { slotPrecision := round2 prec
    slotRecall := round2 rcl
    f1 := round2 f1
    exactMatch := round2 avgExact
    jaccard := round2 avgJac
    avgLatencyMS := round2 avgLat
    count := a.n
    ambiguityHandlingRate := round2 ambRate
    perSlot := fun s =>
      let st := a.slot s
      let p := safeDiv st.tp (st.tp + st.fp)
      let r := safeDiv st.tp (st.tp + st.fn)
      { Precision := round2 p, Recall := round2 r, F1 := round2 (harm p r)
        TP := st.tp, FP := st.fp, FN := st.fn } }

/-- `PerQueryCompare` (part_000). -/
structure PerQueryCompare where
  query : String
  openai : Option QueryScores
  claude : Option QueryScores
  ambiguous : Bool
  accepted : Bool
  time : Nat
deriving DecidableEq

/-- `upsertPerQuery` (part_000): find the row keyed by (query, time),
appending a fresh one if absent, then set the provider's scores and the
ambiguity-acceptance flag. -/
def upsertPerQuery (list : List PerQueryCompare) (run : StoredResult)
    (provider : String) (s : QueryScores) (ambiguous : Bool)
    (acceptable : List ParseResponse) : List PerQueryCompare :=
  let found := list.findIdx? (fun e => e.query == run.query && e.time == run.time)
  let listIdx : List PerQueryCompare × Nat :=
    match found with
    | some i => (list, i)
    | none =>
        (list ++ [{ query := run.query, openai := none, claude := none
                    ambiguous := ambiguous, accepted := false, time := run.time }],
         list.length)
  let list := listIdx.1
  let idx := listIdx.2
  match list.get? idx with
  | none => list
  | some q =>
    let s := { s with latencyMS := run.latency }
    let q :=
      if provider = "openai" then { q with openai := some s }
      else if provider = "claude" then { q with claude := some s }
      else q
    let q :=
      if ambiguous then
        { q with accepted :=
            (run.response.openai.any (fun p => matchesAnyAcceptable p acceptable)) ||
            (run.response.claude.any (fun p => matchesAnyAcceptable p acceptable)) }
      else q
    list.set idx q

/-- The mutable state of one evaluation request (part_000 `evalHandler`):
two provider accumulators and the optional per-query rows. -/
structure EvalState where
  openAcc : acc
  claudeAcc : acc
  perQuery : List PerQueryCompare

/-- The initial evaluation state: `newAcc()` twice, no rows. -/
def initEvalState : EvalState :=
  { openAcc := newAcc, claudeAcc := newAcc, perQuery := [] }

/-- The `gtMap` built by `evalHandler` (part_000): Go map assignment in
file order, i.e. last-write-wins on duplicate query text. -/
def gtMapOf (gtItems : List GroundTruthItem) : String → Option GroundTruthItem :=
  gtItems.foldl (fun m g => fun q => if q = g.query then some g else m q) (fun _ => none)

/-- One iteration of the run loop in `evalHandler` (part_000): skip the
run when its query has no ground-truth entry, otherwise score each
present provider parse, fold it into that provider's accumulator, update
the ambiguity counters, and upsert the per-query row when requested. -/
def processRun (look : String → Option GroundTruthItem) (wantPerQuery : Bool)
    (st : EvalState) (run : StoredResult) : EvalState :=
  match look run.query with
  | none => st
  | some gtItem =>
    let gt := gtItem.truth
    let st1 :=
      match run.response.openai with
      | none => st
      | some p =>
        let s := scoreAgainstGT p gt
        let oa := (st.openAcc.add s run.latency).addSlots p gt
        let oa :=
          if gtItem.ambiguous then
            { oa with
              ambAccepted := oa.ambAccepted +
                (if matchesAnyAcceptable p gtItem.acceptableInterpretation then 1 else 0)
              ambTotal := oa.ambTotal + 1 }
          else oa
        let pq :=
          if wantPerQuery then
            upsertPerQuery st.perQuery run "openai" s gtItem.ambiguous
              gtItem.acceptableInterpretation
          else st.perQuery
        { st with openAcc := oa, perQuery := pq }
    let st2 :=
      match run.response.claude with
      | none => st1
      | some p =>
        let s := scoreAgainstGT p gt
        let ca := (st1.claudeAcc.add s run.latency).addSlots p gt
        let ca :=
          if gtItem.ambiguous then
            { ca with
              ambAccepted := ca.ambAccepted +
                (if matchesAnyAcceptable p gtItem.acceptableInterpretation then 1 else 0)
              ambTotal := ca.ambTotal + 1 }
          else ca
        let pq :=
          if wantPerQuery then
            upsertPerQuery st1.perQuery run "claude" s gtItem.ambiguous
              gtItem.acceptableInterpretation
          else st1.perQuery
        { st1 with claudeAcc := ca, perQuery := pq }
    st2

/-- The state after the whole run loop of `evalHandler` (part_000). -/
def finalState (results : List StoredResult) (gtItems : List GroundTruthItem)
    (wantPerQuery : Bool) : EvalState :=
  results.foldl (processRun (gtMapOf gtItems) wantPerQuery) initEvalState

/-- `EvalResponse` (part_000). -/
structure EvalResponse where
  openai : Option ProviderMetrics
  claude : Option ProviderMetrics
  perQueryDiff : Option (List PerQueryCompare)

/-- The pure core of `evalHandler` (part_000), non-raw path: build the
ground-truth lookup, fold every stored run, then emit a snapshot with a
provider entry only when its accumulator saw at least one query.  The Go
`sort.Slice` by timestamp is modelled as a merge sort by `time`; no claim
depends on the ordering of equal timestamps. -/
def evalCore (results : List StoredResult) (gtItems : List GroundTruthItem)
    (wantPerQuery : Bool) : EvalResponse :=
  let st := finalState results gtItems wantPerQuery
  { openai := if st.openAcc.n > 0 then some st.openAcc.metrics else none
    claude := if st.claudeAcc.n > 0 then some st.claudeAcc.metrics else none
    perQueryDiff :=
      if wantPerQuery then
        some (st.perQuery.mergeSort (fun a b => a.time ≤ b.time))
      else none }

/-- The loop of `extractJSONObject` (api/main.go): `s` is the full
character list, the four remaining arguments are the unscanned suffix,
the current index `i`, the recorded candidate start (Go `start = -1`
becomes `none`) and the brace depth.  Go's byte indices coincide with
character indices here because `{` and `}` are one-byte runes and the
returned slice is delimited by them. -/
def extractAux (s : List Char) : List Char → Nat → Option Nat → Nat → Except String (List Char)
  | [], _, _, _ => .error "no balanced JSON object found"
  | c :: rest, i, start, depth =>
    if c = '\x7b' then
      extractAux s rest (i + 1) (if depth = 0 then some i else start) (depth + 1)
    else if c = '\x7d' then
      if 0 < depth then
        match start with
        | some st =>
            if depth - 1 = 0 then .ok ((s.drop st).take (i + 1 - st))
            else extractAux s rest (i + 1) (some st) (depth - 1)
        | none => extractAux s rest (i + 1) none (depth - 1)
      else extractAux s rest (i + 1) start depth
    else extractAux s rest (i + 1) start depth

/-- `extractJSONObject` (api/main.go): scan for the first balanced JSON
object. -/
def extractJSONObject (s : String) : Except String String :=
  match extractAux s.data s.data 0 none 0 with
  | .ok t => .ok ⟨t⟩
  | .error e => .error e

/-! ### Definitions taken from the spec's words

These second definitions restate, independently of the Go control flow,
what the spec's sentences say; the claim theorems compare them with the
source-derived definitions above. -/

/-- Spec 4.2: `intersection` = |predicted ∩ reference|. -/
def specIntersection (pSet gSet : Finset String) : Nat := (pSet ∩ gSet).card

/-- Spec 4.2: `union` = |predicted| + |reference| − intersection. -/
def specUnion (pSet gSet : Finset String) : Nat :=
  pSet.card + gSet.card - specIntersection pSet gSet

/-- Spec 4.2: `precision` = intersection / |predicted| (0 if |predicted| = 0). -/
def specPrecision (pSet gSet : Finset String) : ℚ :=
  if pSet.card = 0 then 0 else (specIntersection pSet gSet : ℚ) / (pSet.card : ℚ)

/-- Spec 4.2: `recall` = intersection / |reference| (0 if |reference| = 0). -/
def specRecall (pSet gSet : Finset String) : ℚ :=
  if gSet.card = 0 then 0 else (specIntersection pSet gSet : ℚ) / (gSet.card : ℚ)

/-- Spec 4.2: `f1` = harmonic mean `2·p·r/(p+r)` of precision and recall,
0 when precision + recall = 0. -/
def specF1 (pSet gSet : Finset String) : ℚ :=
  let p := specPrecision pSet gSet
  let r := specRecall pSet gSet
  if p + r = 0 then 0 else 2 * p * r / (p + r)

/-- Spec 4.2: `jaccard` = intersection / union, 0 when union = 0. -/
def specJaccard (pSet gSet : Finset String) : ℚ :=
  if specUnion pSet gSet = 0 then 0
  else (specIntersection pSet gSet : ℚ) / (specUnion pSet gSet : ℚ)

/-- Modelled from the spec (4.6): the index of the first `{`, the
candidate start of the balanced-object scan. -/
def firstBrace : List Char → Option Nat
  | [] => none
  | c :: cs => if c = '\x7b' then some 0 else (firstBrace cs).map (· + 1)

/-- Modelled from the spec (4.6): given the characters after the opening
brace and the current positive depth, the relative index of the closing
brace at which the depth first returns to 0, if any. -/
def matchBody : List Char → Nat → Option Nat
  | [], _ => none
  | c :: cs, d =>
      let d' := if c = '\x7b' then d + 1 else if c = '\x7d' then d - 1 else d
      if d' = 0 then some 0 else (matchBody cs d').map (· + 1)

/-- Modelled from the spec (4.6): the balanced-object extraction described
by the spec's words — take the first `{`, walk the brace depth until it
returns to 0, and return that span inclusive. -/
def specExtract (s : List Char) : Option (List Char) :=
  match firstBrace s with
  | none => none
  | some i =>
    match matchBody (s.drop (i + 1)) 1 with
    | some nn => some ((s.drop i).take (nn + 2))
    | none => none

/-! ### Helper lemmas -/

lemma takeWhile_append_sep (pr : Char → Bool) (l1 : List Char) (c : Char) (l2 : List Char)
    (h1 : ∀ x ∈ l1, pr x = true) (h2 : pr c = false) :
    (l1 ++ c :: l2).takeWhile pr = l1 := by
  induction l1 with
  | nil => simp [List.takeWhile, h2]
  | cons a l ih =>
      have ha : pr a = true := h1 a (by simp)
      simp only [List.cons_append, List.takeWhile, ha]
      have := ih (fun x hx => h1 x (by simp [hx]))
      simp [this]

lemma fact_data (slot v : String) : (fact slot v).data = slot.data ++ '=' :: v.data := by
  simp [fact, String.data_append]

/-- `slotNameOf` recovers the slot of any well-formed fact: the slot part
is non-empty and `=`-free, so the first `=` is exactly the separator. -/
lemma slotNameOf_fact (slot v : String) (h1 : slot.data ≠ []) (h2 : '=' ∉ slot.data) :
    slotNameOf (fact slot v) = slot := by
  have hx : ∀ x ∈ slot.data, (fun c => decide (c ≠ '=')) x = true := by
    intro x hx
    simp only [decide_eq_true_iff]
    rintro rfl
    exact h2 hx
  unfold slotNameOf
  rw [fact_data, takeWhile_append_sep _ _ _ _ hx (by simp)]
  have hne : slot.data.isEmpty = false := by
    cases hsd : slot.data
    · exact absurd hsd h1
    · rfl
  simp only [hne, Bool.false_eq_true, if_false]

lemma setsEqual_iff (a b : Finset String) : setsEqual a b = true ↔ a = b := by
  unfold setsEqual
  rw [decide_eq_true_iff]
  constructor
  · rintro ⟨hc, hs⟩
    exact Finset.eq_of_subset_of_card_le hs hc.ge
  · rintro rfl
    exact ⟨rfl, Finset.Subset.refl a⟩

lemma filter_mem_inter (P G : Finset String) :
    P.filter (fun k => k ∈ G) = P ∩ G := by
  ext k
  simp [Finset.mem_filter, Finset.mem_inter]

lemma filter_not_mem_sdiff (P G : Finset String) :
    P.filter (fun k => k ∉ G) = P \ G := by
  ext k
  simp [Finset.mem_filter, Finset.mem_sdiff]

lemma addSlice_cons (s : Finset String) (pre a : String) (l : List String) :
    addSlice s pre (a :: l) =
      addSlice (if strTrim a ≠ "" then insert (fact pre (strTrim a)) s else s) pre l := rfl

/-- Membership in the result of `addSlice`. -/
lemma mem_addSlice (s : Finset String) (pre : String) (arr : List String) (k : String) :
    k ∈ addSlice s pre arr ↔ k ∈ s ∨ ∃ v ∈ arr, strTrim v ≠ "" ∧ k = fact pre (strTrim v) := by
  induction arr generalizing s with
  | nil => simp [addSlice]
  | cons a l ih =>
      rw [addSlice_cons]
      by_cases ha : strTrim a = ""
      · rw [if_neg (not_not_intro ha), ih]
        simp only [List.mem_cons]
        constructor
        · rintro (hk | ⟨v, hv, hv1, hv2⟩)
          · exact Or.inl hk
          · exact Or.inr ⟨v, Or.inr hv, hv1, hv2⟩
        · rintro (hk | ⟨v, hv, hv1, hv2⟩)
          · exact Or.inl hk
          · rcases hv with rfl | hv
            · exact absurd ha hv1
            · exact Or.inr ⟨v, hv, hv1, hv2⟩
      · rw [if_pos ha, ih]
        simp only [Finset.mem_insert, List.mem_cons]
        constructor
        · rintro ((hk | hk) | ⟨v, hv, hv1, hv2⟩)
          · exact Or.inr ⟨a, Or.inl rfl, ha, hk⟩
          · exact Or.inl hk
          · exact Or.inr ⟨v, Or.inr hv, hv1, hv2⟩
        · rintro (hk | ⟨v, hv, hv1, hv2⟩)
          · exact Or.inl (Or.inr hk)
          · rcases hv with rfl | hv
            · exact Or.inl (Or.inl hv2)
            · exact Or.inr ⟨v, hv, hv1, hv2⟩

/-- Permuting the tag list does not change the facts `addSlice` adds. -/
lemma addSlice_perm (s : Finset String) (pre : String) (l l' : List String)
    (h : l.Perm l') : addSlice s pre l = addSlice s pre l' := by
  ext k
  rw [mem_addSlice, mem_addSlice]
  constructor <;> rintro (hk | ⟨v, hv, h1, h2⟩)
  · exact Or.inl hk
  · exact Or.inr ⟨v, h.mem_iff.mp hv, h1, h2⟩
  · exact Or.inl hk
  · exact Or.inr ⟨v, h.mem_iff.mpr hv, h1, h2⟩

lemma mem_ite_insert (c : Prop) [Decidable c] (x : String) (s : Finset String) (k : String) :
    (k ∈ if c then insert x s else s) ↔ (c ∧ k = x) ∨ k ∈ s := by
  split
  · next h => simp [Finset.mem_insert, h]
  · next h => simp [h]

/-- The facts contributed by one filter category. -/
def sliceMem (pre : String) (l : List String) (k : String) : Prop :=
  ∃ v ∈ l, strTrim v ≠ "" ∧ k = fact pre (strTrim v)

/-- Full characterisation of membership in `flatten`. -/
lemma mem_flatten (p : ParseResponse) (k : String) :
    k ∈ flatten p ↔
      k = fact "family_friendly" (fmtBool p.familyFriendly) ∨
      (p.ratingMin ≠ 0 ∧ k = fact "rating_min" (fmtF1 p.ratingMin)) ∨
      (p.starsMin ≠ 0 ∧ k = fact "stars_min" (toString p.starsMin)) ∨
      (p.priceMaxEUR ≠ 0 ∧ k = fact "price_max_eur" (fmtF0 p.priceMaxEUR)) ∨
      (p.guests.children ≠ 0 ∧ k = fact "guests.children" (toString p.guests.children)) ∨
      (p.guests.adults ≠ 0 ∧ k = fact "guests.adults" (toString p.guests.adults)) ∨
      (p.dates.checkout ≠ "" ∧ k = fact "dates.checkout" p.dates.checkout) ∨
      (p.dates.checkin ≠ "" ∧ k = fact "dates.checkin" p.dates.checkin) ∨
      (p.location ≠ "" ∧ k = fact "location" p.location) ∨
      sliceMem "ui.meals" p.uiFilters.meals k ∨
      sliceMem "ui.ratings" p.uiFilters.ratings k ∨
      sliceMem "ui.hotelTypes" p.uiFilters.hotelTypes k ∨
      sliceMem "ui.hotelfacilities" p.uiFilters.hotelfacilities k ∨
      sliceMem "ui.poolbeach" p.uiFilters.poolbeach k ∨
      sliceMem "ui.distanceBeach" p.uiFilters.distanceBeach k ∨
      sliceMem "ui.travelGroup" p.uiFilters.travelGroup k ∨
      sliceMem "ui.stars" p.uiFilters.stars k ∨
      sliceMem "ui.wellness" p.uiFilters.wellness k ∨
      sliceMem "ui.reference_distance_max" p.uiFilters.referenceDistance k ∨
      sliceMem "ui.flex" p.uiFilters.flex k ∨
      sliceMem "ui.children" p.uiFilters.children k ∨
      sliceMem "ui.parking" p.uiFilters.parking k ∨
      sliceMem "ui.freetime" p.uiFilters.freetime k ∨
      sliceMem "ui.certifications" p.uiFilters.certifications k ∨
      sliceMem "ui.hotelthemes" p.uiFilters.hotelthemes k ∨
      sliceMem "ui.hotelBrand" p.uiFilters.hotelBrand k ∨
      sliceMem "ui.hotelinformation" p.uiFilters.hotelinformation k ∨
      sliceMem "unsupported" p.unsupportedCriteria k := by
  simp only [flatten, mem_addSlice, mem_ite_insert, Finset.mem_insert,
    Finset.not_mem_empty, or_false, sliceMem, or_assoc]

lemma famFact_mem_flatten (p : ParseResponse) :
    fact "family_friendly" (fmtBool p.familyFriendly) ∈ flatten p :=
  (mem_flatten p _).mpr (Or.inl rfl)

lemma flatten_nonempty (p : ParseResponse) : (flatten p).Nonempty :=
  ⟨_, famFact_mem_flatten p⟩

lemma flatten_card_pos (p : ParseResponse) : 1 ≤ (flatten p).card :=
  Finset.card_pos.mpr (flatten_nonempty p)

/-- The only fact of `flatten p` whose slot is `family_friendly` is the
family-friendly fact itself. -/
lemma slot_family_unique (p : ParseResponse) (k : String) (hk : k ∈ flatten p)
    (hs : slotNameOf k = "family_friendly") :
    k = fact "family_friendly" (fmtBool p.familyFriendly) := by
  rcases (mem_flatten p k).mp hk with
    h | h | h | h | h | h | h | h | h | h | h | h | h | h |
    h | h | h | h | h | h | h | h | h | h | h | h | h | h
  all_goals first
    | exact h
    | (obtain ⟨-, rfl⟩ := h
       rw [slotNameOf_fact _ _ (by decide) (by decide)] at hs
       exact absurd hs (by decide))
    | (obtain ⟨v, -, -, rfl⟩ := h
       rw [slotNameOf_fact _ _ (by decide) (by decide)] at hs
       exact absurd hs (by decide))

lemma flatten_family_filter (p : ParseResponse) :
    (flatten p).filter (fun k => slotNameOf k = "family_friendly") =
      {fact "family_friendly" (fmtBool p.familyFriendly)} := by
  ext k
  simp only [Finset.mem_filter, Finset.mem_singleton]
  constructor
  · rintro ⟨hk, hs⟩
    exact slot_family_unique p k hk hs
  · rintro rfl
    exact ⟨famFact_mem_flatten p, slotNameOf_fact _ _ (by decide) (by decide)⟩

lemma safeDiv_specPrecision (P G : Finset String) :
    safeDiv ((P.filter (fun k => k ∈ G)).card) P.card = specPrecision P G := by
  unfold safeDiv specPrecision specIntersection
  rw [filter_mem_inter]

lemma safeDiv_specRecall (P G : Finset String) :
    safeDiv ((P.filter (fun k => k ∈ G)).card) G.card = specRecall P G := by
  unfold safeDiv specRecall specIntersection
  rw [filter_mem_inter]

lemma specF1_eq (P G : Finset String) :
    specF1 P G = harm (specPrecision P G) (specRecall P G) := rfl

lemma round2_zero : round2 (0 : ℚ) = 0 := by
  unfold round2
  norm_num

lemma round2_one : round2 (1 : ℚ) = 1 := by
  unfold round2
  norm_num

lemma scoreSets_jaccard (P G : Finset String) :
    (scoreSets P G).jaccard = round2 (specJaccard P G) := by
  simp only [scoreSets]
  congr 1
  rw [filter_mem_inter]
  unfold specJaccard specUnion specIntersection
  rcases Nat.eq_zero_or_pos (P.card + G.card - (P ∩ G).card) with h2 | h2
  · simp [h2]
  · simp [h2, Nat.pos_iff_ne_zero.mp h2]

lemma scoreSets_f1_eq (P G : Finset String) :
    (scoreSets P G).f1 = round2 (specF1 P G) := by
  simp only [scoreSets]
  congr 1

/-- `scoreSets` componentwise, in terms of the spec-level definitions. -/
lemma scoreSets_eq (P G : Finset String) :
    scoreSets P G =
      ⟨setsEqual P G, round2 (specJaccard P G), round2 (specF1 P G), 0⟩ := by
  have h0 : scoreSets P G =
      ⟨(scoreSets P G).exactMatch, (scoreSets P G).jaccard,
       (scoreSets P G).f1, (scoreSets P G).latencyMS⟩ := rfl
  rw [h0, scoreSets_jaccard, scoreSets_f1_eq]
  rfl

lemma scoreSets_self (P : Finset String) (h : P.Nonempty) :
    scoreSets P P = ⟨true, 1, 1, 0⟩ := by
  have hc : P.card ≠ 0 := Nat.pos_iff_ne_zero.mp (Finset.card_pos.mpr h)
  have hcq : (P.card : ℚ) ≠ 0 := Nat.cast_ne_zero.mpr hc
  have hinter : specIntersection P P = P.card := by
    unfold specIntersection
    rw [Finset.inter_self]
  have hu : specUnion P P = P.card := by
    unfold specUnion
    rw [hinter]
    omega
  have hJ : specJaccard P P = 1 := by
    unfold specJaccard
    rw [hu, hinter, if_neg hc, div_self hcq]
  have hF : specF1 P P = 1 := by
    unfold specF1 specPrecision specRecall
    rw [hinter]
    simp only [hc, if_false, div_self hcq]
    norm_num
  rw [scoreSets_eq, hJ, hF, (setsEqual_iff P P).mpr rfl, round2_one]

/-- Phase 2 of the brace scan: once a start has been recorded and the
depth is positive, the loop returns the slice ending at the position
where the walk first returns to depth 0, and fails iff there is none. -/
lemma extractAux_phase2 (s : List Char) :
    ∀ (rest : List Char) (i st d : Nat), 0 < d →
      extractAux s rest i (some st) d =
        match matchBody rest d with
        | some nn => .ok ((s.drop st).take (i + nn + 1 - st))
        | none => .error "no balanced JSON object found"
  | [], i, st, d, _ => rfl
  | c :: cs, i, st, d, hd => by
      by_cases hb : c = '\x7b'
      · subst hb
        rw [show extractAux s ('\x7b' :: cs) i (some st) d =
              extractAux s cs (i + 1) (if d = 0 then some i else some st) (d + 1) from rfl]
        rw [if_neg (by omega)]
        rw [extractAux_phase2 s cs (i + 1) st (d + 1) (by omega)]
        rw [show matchBody ('\x7b' :: cs) d =
              (matchBody cs (d + 1)).map (· + 1) from by
            simp [matchBody, Nat.succ_ne_zero]]
        cases matchBody cs (d + 1) with
        | none => rfl
        | some m =>
            exact congrArg (fun t => Except.ok (List.take t (List.drop st s)))
              (show i + 1 + m + 1 - st = i + (m + 1) + 1 - st from by omega)
      · by_cases hb2 : c = '\x7d'
        · subst hb2
          rw [show extractAux s ('\x7d' :: cs) i (some st) d =
                (if 0 < d then
                  (if d - 1 = 0 then .ok ((s.drop st).take (i + 1 - st))
                   else extractAux s cs (i + 1) (some st) (d - 1))
                 else extractAux s cs (i + 1) (some st) d) from by
              simp [extractAux]]
          rw [if_pos hd]
          by_cases h1 : d = 1
          · subst h1
            rw [if_pos rfl]
            rw [show matchBody ('\x7d' :: cs) 1 = some 0 from by simp [matchBody]]
          · rw [if_neg (by omega)]
            rw [extractAux_phase2 s cs (i + 1) st (d - 1) (by omega)]
            rw [show matchBody ('\x7d' :: cs) d =
                  (matchBody cs (d - 1)).map (· + 1) from by
                simp [matchBody, show d - 1 ≠ 0 from by omega]]
            cases matchBody cs (d - 1) with
            | none => rfl
            | some m =>
                exact congrArg (fun t => Except.ok (List.take t (List.drop st s)))
                  (show i + 1 + m + 1 - st = i + (m + 1) + 1 - st from by omega)
        · rw [show extractAux s (c :: cs) i (some st) d =
                extractAux s cs (i + 1) (some st) d from by
              simp [extractAux, hb, hb2]]
          rw [extractAux_phase2 s cs (i + 1) st d hd]
          rw [show matchBody (c :: cs) d = (matchBody cs d).map (· + 1) from by
            simp [matchBody, hb, hb2, Nat.pos_iff_ne_zero.mp hd]]
          cases matchBody cs d with
          | none => rfl
          | some m =>
              exact congrArg (fun t => Except.ok (List.take t (List.drop st s)))
                (show i + 1 + m + 1 - st = i + (m + 1) + 1 - st from by omega)

/-- Phase 1 of the brace scan: with no start recorded and depth 0, the
loop skips everything up to the first `{` (a `}` met at depth 0 is
ignored by the guard) and then behaves like phase 2. -/
lemma extractAux_phase1 (s : List Char) :
    ∀ (rest : List Char) (i : Nat), s.drop i = rest →
      extractAux s rest i none 0 =
        match firstBrace rest with
        | none => .error "no balanced JSON object found"
        | some kk =>
          match matchBody (rest.drop (kk + 1)) 1 with
          | some nn => .ok ((rest.drop kk).take (nn + 2))
          | none => .error "no balanced JSON object found"
  | [], i, _ => rfl
  | c :: cs, i, hdrop => by
      have hdrop1 : s.drop (i + 1) = cs := by
        rw [← List.drop_drop 1 i s, hdrop]
        rfl
      by_cases hb : c = '\x7b'
      · subst hb
        rw [show extractAux s ('\x7b' :: cs) i none 0 =
              extractAux s cs (i + 1) (some i) 1 from rfl]
        rw [extractAux_phase2 s cs (i + 1) i 1 Nat.one_pos]
        rw [show firstBrace ('\x7b' :: cs) = some 0 from by simp [firstBrace]]
        show (match matchBody cs 1 with
              | some nn => Except.ok (List.take (i + 1 + nn + 1 - i) (List.drop i s))
              | none => Except.error "no balanced JSON object found") =
          match matchBody cs 1 with
          | some nn => Except.ok (List.take (nn + 2) ('\x7b' :: cs))
          | none => Except.error "no balanced JSON object found"
        rw [hdrop]
        cases matchBody cs 1 with
        | none => rfl
        | some m =>
            exact congrArg (fun t => Except.ok (List.take t ('\x7b' :: cs)))
              (show i + 1 + m + 1 - i = m + 2 from by omega)
      · rw [show extractAux s (c :: cs) i none 0 =
              extractAux s cs (i + 1) none 0 from by
            by_cases hb2 : c = '\x7d' <;> simp [extractAux, hb, hb2]]
        rw [extractAux_phase1 s cs (i + 1) hdrop1]
        rw [show firstBrace (c :: cs) = (firstBrace cs).map (· + 1) from by
          simp [firstBrace, hb]]
        cases firstBrace cs with
        | none => rfl
        | some kk => rfl

/-- The source scan agrees with the spec's description of the
balanced-object extraction. -/
lemma extractAux_eq_specExtract (s : List Char) :
    extractAux s s 0 none 0 =
      match specExtract s with
      | some t => .ok t
      | none => .error "no balanced JSON object found" := by
  rw [extractAux_phase1 s s 0 rfl]
  unfold specExtract
  cases firstBrace s with
  | none => rfl
  | some kk =>
      show (match matchBody (s.drop (kk + 1)) 1 with
            | some nn => Except.ok ((s.drop kk).take (nn + 2))
            | none => Except.error "no balanced JSON object found") =
        match (match matchBody (s.drop (kk + 1)) 1 with
               | some nn => some ((s.drop kk).take (nn + 2))
               | none => none) with
        | some t => Except.ok t
        | none => Except.error "no balanced JSON object found"
      cases matchBody (s.drop (kk + 1)) 1 with
      | none => rfl
      | some nn => rfl

/-- Unfolding of the `gtMap` fold: the lookup returns the last
ground-truth entry whose query matches, i.e. `find?` on the reversed
list. -/
lemma gtMapOf_eq_find (gtItems : List GroundTruthItem) (q : String) :
    gtMapOf gtItems q = gtItems.reverse.find? (fun g => g.query == q) := by
  induction gtItems using List.reverseRecOn with
  | nil => rfl
  | append_singleton gs g ih =>
      unfold gtMapOf
      rw [List.foldl_append]
      show (if q = g.query then some g else gtMapOf gs q) = _
      rw [List.reverse_append]
      show _ = List.find? (fun g => g.query == q) (g :: gs.reverse)
      by_cases h : g.query = q
      · rw [if_pos h.symm]
        rw [List.find?_cons_of_pos _ (by simp [h])]
      · rw [if_neg (fun hq => h hq.symm)]
        rw [List.find?_cons_of_neg _ (by simp [h])]
        exact ih

/-- A run with no matching ground-truth entry leaves the evaluation state
untouched. -/
lemma processRun_none (look : String → Option GroundTruthItem) (w : Bool)
    (st : EvalState) (run : StoredResult) (h : look run.query = none) :
    processRun look w st run = st := by
  unfold processRun
  rw [h]

lemma gtMapOf_nil (q : String) : gtMapOf [] q = none := rfl

lemma finalState_nil_gt (results : List StoredResult) (w : Bool) :
    finalState results [] w = initEvalState := by
  unfold finalState
  induction results with
  | nil => rfl
  | cons r rs ih =>
      rw [List.foldl_cons, processRun_none _ _ _ _ (gtMapOf_nil r.query)]
      exact ih

/-- When the ground-truth lookup hits and the OpenAI parse is present,
the run contributes exactly one query (and its F1) to the OpenAI
accumulator. -/
lemma processRun_openai_stats (look : String → Option GroundTruthItem) (w : Bool)
    (st : EvalState) (run : StoredResult) (gtItem : GroundTruthItem) (p : ParseResponse)
    (h1 : look run.query = some gtItem) (h2 : run.response.openai = some p) :
    (processRun look w st run).openAcc.n = st.openAcc.n + 1 ∧
    (processRun look w st run).openAcc.sumF1 =
      st.openAcc.sumF1 + (scoreAgainstGT p gtItem.truth).f1 := by
  unfold processRun
  rw [h1]
  simp only [h2]
  cases hc : run.response.claude <;>
    simp [hc, acc.add, acc.addSlots] <;> split_ifs <;> simp

/-- Same for the Claude provider. -/
lemma processRun_claude_stats (look : String → Option GroundTruthItem) (w : Bool)
    (st : EvalState) (run : StoredResult) (gtItem : GroundTruthItem) (p : ParseResponse)
    (h1 : look run.query = some gtItem) (h2 : run.response.claude = some p) :
    (processRun look w st run).claudeAcc.n = st.claudeAcc.n + 1 ∧
    (processRun look w st run).claudeAcc.sumF1 =
      st.claudeAcc.sumF1 + (scoreAgainstGT p gtItem.truth).f1 := by
  unfold processRun
  rw [h1]
  simp only [h2]
  cases ho : run.response.openai <;>
    simp [ho, acc.add, acc.addSlots] <;> split_ifs <;> simp

lemma sliceMem_perm (pre : String) {l l' : List String} (h : l.Perm l') (k : String) :
    sliceMem pre l k ↔ sliceMem pre l' k := by
  unfold sliceMem
  constructor <;> rintro ⟨v, hv, hv1, hv2⟩
  · exact ⟨v, h.mem_iff.mp hv, hv1, hv2⟩
  · exact ⟨v, h.mem_iff.mpr hv, hv1, hv2⟩

/-! ### Concrete sample data used by counterexamples and witnesses -/

/-- All eighteen filter categories empty. -/
def uiNone : UiFilters := ⟨[], [], [], [], [], [], [], [], [], [], [], [], [], [], [], [], [], []⟩

/-- The all-default ParsedQuery; it flattens to the single fact
`family_friendly=false`. -/
def parse0 : ParseResponse :=
  { location := "", dates := ⟨"", ""⟩, guests := ⟨0, 0⟩, priceMaxEUR := 0
    starsMin := 0, ratingMin := 0, familyFriendly := false
    uiFilters := uiNone, unsupportedCriteria := [] }

/-- Prediction used by the rounding counterexample: 2 facts. -/
def predR : ParseResponse := { parse0 with location := "Berlin" }

/-- Reference used by the rounding counterexample: 6 facts, a superset of
`predR`'s facts, so Jaccard is 2/6 = 1/3. -/
def gtR : ParseResponse :=
  { parse0 with
    location := "Berlin"
    dates := ⟨"2025-01-01", "2025-01-02"⟩
    guests := ⟨2, 1⟩ }

/-- A parse with a duplicated tag in the meals category. -/
def dupMeals : ParseResponse :=
  { parse0 with uiFilters := { uiNone with meals := ["breakfast", "breakfast"] } }

lemma round_hundred_thirds : round ((100 : ℚ)/3) = 33 := by
  rw [round_eq]
  norm_num

lemma round2_one_third : round2 ((1 : ℚ)/3) = 33/100 := by
  unfold round2
  rw [show (1 : ℚ)/3 * 100 = 100/3 from by ring, round_hundred_thirds]
  norm_num

/-! ### Claim theorems -/

/-- C1: the pairwise scorer is a total function (by construction of
`scoreAgainstGT`) whose components realise the spec formulas:
`exactMatch` is true iff the two fact sets are identical, the safe
divisions compute precision `inter/|predicted|` and recall
`inter/|reference|` with the 0 fallback, `harm` realises the harmonic
mean with the 0 fallback, and the reported `f1` and `jaccard` are those
spec values (rounded to 2 decimals, per the spec's output rule). -/
theorem pairwise_scorer_matches_spec (pred gt : ParseResponse) :
    ((scoreAgainstGT pred gt).exactMatch = true ↔ flatten pred = flatten gt) ∧
    safeDiv (((flatten pred).filter (fun k => k ∈ flatten gt)).card) (flatten pred).card
      = specPrecision (flatten pred) (flatten gt) ∧
    safeDiv (((flatten pred).filter (fun k => k ∈ flatten gt)).card) (flatten gt).card
      = specRecall (flatten pred) (flatten gt) ∧
    harm (specPrecision (flatten pred) (flatten gt)) (specRecall (flatten pred) (flatten gt))
      = specF1 (flatten pred) (flatten gt) ∧
    (scoreAgainstGT pred gt).f1 = round2 (specF1 (flatten pred) (flatten gt)) ∧
    (scoreAgainstGT pred gt).jaccard = round2 (specJaccard (flatten pred) (flatten gt)) := by
  refine ⟨?_, safeDiv_specPrecision _ _, safeDiv_specRecall _ _, (specF1_eq _ _).symm,
    scoreSets_f1_eq _ _, scoreSets_jaccard _ _⟩
  show setsEqual (flatten pred) (flatten gt) = true ↔ _
  exact setsEqual_iff _ _

/-- C2 counterexample: the claim says the values fed into the running
accumulation are the *unrounded* per-query Jaccard/F1.  On `predR` vs
`gtR` the unrounded Jaccard is 1/3, yet after one `acc.add` the
accumulator holds 33/100: the scorer rounds before the aggregator sums. -/
theorem rounding_reaches_accumulator :
    specJaccard (flatten predR) (flatten gtR) = 1/3 ∧
    (newAcc.add (scoreAgainstGT predR gtR) 0).sumJac = 33/100 ∧
    (newAcc.add (scoreAgainstGT predR gtR) 0).sumJac ≠
      specJaccard (flatten predR) (flatten gtR) := by
  have hi : specIntersection (flatten predR) (flatten gtR) = 2 := by decide
  have hu : specUnion (flatten predR) (flatten gtR) = 6 := by decide
  have hJ : specJaccard (flatten predR) (flatten gtR) = 1/3 := by
    unfold specJaccard
    rw [hi, hu]
    norm_num
  have hsum : (newAcc.add (scoreAgainstGT predR gtR) 0).sumJac = 33/100 := by
    show newAcc.sumJac + (scoreAgainstGT predR gtR).jaccard = 33/100
    rw [show (scoreAgainstGT predR gtR).jaccard =
          round2 (specJaccard (flatten predR) (flatten gtR)) from scoreSets_jaccard _ _,
        hJ, round2_one_third]
    show (0 : ℚ) + 33/100 = 33/100
    norm_num
  refine ⟨hJ, hsum, ?_⟩
  rw [hsum, hJ]
  norm_num

/-- C2 amended: per-query Jaccard and F1 are rounded to 2 decimals inside
the pairwise scorer, and exactly those rounded values are what `acc.add`
sums (the accumulation itself applies no further rounding); the aggregate
means are rounded again when the snapshot is produced. -/
theorem rounding_applied_in_scorer_then_at_reporting (pred gt : ParseResponse)
    (a : acc) (q : QueryScores) (lat : Int) :
    (scoreAgainstGT pred gt).jaccard = round2 (specJaccard (flatten pred) (flatten gt)) ∧
    (scoreAgainstGT pred gt).f1 = round2 (specF1 (flatten pred) (flatten gt)) ∧
    (a.add q lat).sumJac = a.sumJac + q.jaccard ∧
    (a.add q lat).sumF1 = a.sumF1 + q.f1 ∧
    a.metrics.jaccard = round2 (if a.n > 0 then a.sumJac / (a.n : ℚ) else 0) :=
  ⟨scoreSets_jaccard _ _, scoreSets_f1_eq _ _, rfl, rfl, rfl⟩

/-- C3: `addSlots` adds, per slot, the number of predicted facts also in
the reference (TP), of predicted facts absent from the reference (FP),
and of reference facts absent from the prediction (FN); consequently both
the per-slot and the micro counters are additive across queries. -/
theorem slot_aggregation_additive (a : acc) (p1 g1 p2 g2 : ParseResponse) (s : String) :
    (((a.addSlots p1 g1).slot s).tp = (a.slot s).tp +
        ((flatten p1 ∩ flatten g1).filter (fun k => slotNameOf k = s)).card) ∧
    (((a.addSlots p1 g1).slot s).fp = (a.slot s).fp +
        ((flatten p1 \ flatten g1).filter (fun k => slotNameOf k = s)).card) ∧
    (((a.addSlots p1 g1).slot s).fn = (a.slot s).fn +
        ((flatten g1 \ flatten p1).filter (fun k => slotNameOf k = s)).card) ∧
    ((((a.addSlots p1 g1).addSlots p2 g2).slot s).tp =
      (a.slot s).tp + ((newAcc.addSlots p1 g1).slot s).tp +
        ((newAcc.addSlots p2 g2).slot s).tp) ∧
    ((((a.addSlots p1 g1).addSlots p2 g2).slot s).fp =
      (a.slot s).fp + ((newAcc.addSlots p1 g1).slot s).fp +
        ((newAcc.addSlots p2 g2).slot s).fp) ∧
    ((((a.addSlots p1 g1).addSlots p2 g2).slot s).fn =
      (a.slot s).fn + ((newAcc.addSlots p1 g1).slot s).fn +
        ((newAcc.addSlots p2 g2).slot s).fn) ∧
    (((a.addSlots p1 g1).addSlots p2 g2).tp =
      a.tp + (newAcc.addSlots p1 g1).tp + (newAcc.addSlots p2 g2).tp) ∧
    (((a.addSlots p1 g1).addSlots p2 g2).fp =
      a.fp + (newAcc.addSlots p1 g1).fp + (newAcc.addSlots p2 g2).fp) ∧
    (((a.addSlots p1 g1).addSlots p2 g2).fn =
      a.fn + (newAcc.addSlots p1 g1).fn + (newAcc.addSlots p2 g2).fn) := by
  refine ⟨?_, ?_, ?_, ?_, ?_, ?_, ?_, ?_, ?_⟩ <;>
    simp [acc.addSlots, newAcc, flattenWithSlots,
      ← filter_mem_inter, ← filter_not_mem_sdiff]

/-- C5: the ambiguity resolver returns false on an empty acceptable list,
and otherwise accepts exactly when the flattened prediction is set-equal
to the flattening of at least one acceptable interpretation. -/
theorem ambiguity_resolver_exact_match (pred : ParseResponse)
    (accepts : List ParseResponse) :
    matchesAnyAcceptable pred [] = false ∧
    (matchesAnyAcceptable pred accepts = true ↔
      ∃ a ∈ accepts, flatten pred = flatten a) := by
  refine ⟨rfl, ?_⟩
  unfold matchesAnyAcceptable
  cases accepts with
  | nil => simp
  | cons a l =>
      rw [if_neg (by simp)]
      rw [List.any_eq_true]
      constructor
      · rintro ⟨x, hx, hs⟩
        exact ⟨x, hx, (setsEqual_iff _ _).mp hs⟩
      · rintro ⟨x, hx, he⟩
        exact ⟨x, hx, (setsEqual_iff _ _).mpr he⟩

/-- C4: flattening is order-insensitive — permuting the tag lists of the
filter categories and of the unsupported-criteria list leaves the FactSet
unchanged — and duplicate tags collapse: with meals
`["breakfast","breakfast"]` the set has exactly one `ui.meals` fact,
namely `ui.meals=breakfast`. -/
theorem flatten_order_insensitive :
    (∀ (p : ParseResponse) (u : UiFilters) (unsup : List String),
      p.uiFilters.meals.Perm u.meals →
      p.uiFilters.ratings.Perm u.ratings →
      p.uiFilters.hotelTypes.Perm u.hotelTypes →
      p.uiFilters.hotelfacilities.Perm u.hotelfacilities →
      p.uiFilters.poolbeach.Perm u.poolbeach →
      p.uiFilters.distanceBeach.Perm u.distanceBeach →
      p.uiFilters.travelGroup.Perm u.travelGroup →
      p.uiFilters.stars.Perm u.stars →
      p.uiFilters.wellness.Perm u.wellness →
      p.uiFilters.referenceDistance.Perm u.referenceDistance →
      p.uiFilters.flex.Perm u.flex →
      p.uiFilters.children.Perm u.children →
      p.uiFilters.parking.Perm u.parking →
      p.uiFilters.freetime.Perm u.freetime →
      p.uiFilters.certifications.Perm u.certifications →
      p.uiFilters.hotelthemes.Perm u.hotelthemes →
      p.uiFilters.hotelBrand.Perm u.hotelBrand →
      p.uiFilters.hotelinformation.Perm u.hotelinformation →
      p.unsupportedCriteria.Perm unsup →
      flatten { p with uiFilters := u, unsupportedCriteria := unsup } = flatten p) ∧
    fact "ui.meals" "breakfast" ∈ flatten dupMeals ∧
    ((flatten dupMeals).filter (fun k => slotNameOf k = "ui.meals")).card = 1 := by
  refine ⟨?_, by decide, by decide⟩
  intro p u unsup h1 h2 h3 h4 h5 h6 h7 h8 h9 h10 h11 h12 h13 h14 h15 h16 h17 h18 h19
  ext k
  rw [mem_flatten, mem_flatten]
  simp only [sliceMem_perm "ui.meals" h1 k, sliceMem_perm "ui.ratings" h2 k,
    sliceMem_perm "ui.hotelTypes" h3 k, sliceMem_perm "ui.hotelfacilities" h4 k,
    sliceMem_perm "ui.poolbeach" h5 k, sliceMem_perm "ui.distanceBeach" h6 k,
    sliceMem_perm "ui.travelGroup" h7 k, sliceMem_perm "ui.stars" h8 k,
    sliceMem_perm "ui.wellness" h9 k, sliceMem_perm "ui.reference_distance_max" h10 k,
    sliceMem_perm "ui.flex" h11 k, sliceMem_perm "ui.children" h12 k,
    sliceMem_perm "ui.parking" h13 k, sliceMem_perm "ui.freetime" h14 k,
    sliceMem_perm "ui.certifications" h15 k, sliceMem_perm "ui.hotelthemes" h16 k,
    sliceMem_perm "ui.hotelBrand" h17 k, sliceMem_perm "ui.hotelinformation" h18 k,
    sliceMem_perm "unsupported" h19 k]

/-- C6: in the report builder's join, a stored run whose query has no
ground-truth entry leaves the whole evaluation state unchanged (no
accumulator, counter or per-query row); the lookup is last-write-wins on
duplicate query text (it returns `find?` on the reversed corpus); and
when the lookup hits and a provider's parse is present, that provider's
accumulator receives exactly one query scored against the found entry's
truth. -/
theorem report_builder_join (gtItems : List GroundTruthItem) (w : Bool)
    (st : EvalState) (run : StoredResult) :
    ((∀ g ∈ gtItems, g.query ≠ run.query) →
      processRun (gtMapOf gtItems) w st run = st) ∧
    (∀ q, gtMapOf gtItems q = gtItems.reverse.find? (fun g => g.query == q)) ∧
    (∀ gtItem p, gtMapOf gtItems run.query = some gtItem →
      run.response.openai = some p →
        (processRun (gtMapOf gtItems) w st run).openAcc.n = st.openAcc.n + 1 ∧
        (processRun (gtMapOf gtItems) w st run).openAcc.sumF1 =
          st.openAcc.sumF1 + (scoreAgainstGT p gtItem.truth).f1) ∧
    (∀ gtItem p, gtMapOf gtItems run.query = some gtItem →
      run.response.claude = some p →
        (processRun (gtMapOf gtItems) w st run).claudeAcc.n = st.claudeAcc.n + 1 ∧
        (processRun (gtMapOf gtItems) w st run).claudeAcc.sumF1 =
          st.claudeAcc.sumF1 + (scoreAgainstGT p gtItem.truth).f1) := by
  refine ⟨?_, gtMapOf_eq_find gtItems, ?_, ?_⟩
  · intro h
    apply processRun_none
    rw [gtMapOf_eq_find]
    rw [List.find?_eq_none]
    intro g hg
    simp only [beq_iff_eq]
    exact h g (List.mem_reverse.mp hg)
  · intro gtItem p h1 h2
    exact processRun_openai_stats _ _ _ _ _ _ h1 h2
  · intro gtItem p h1 h2
    exact processRun_claude_stats _ _ _ _ _ _ h1 h2

/-- C7: the balanced-object extraction implements exactly the spec's
scan (first `{`, inclusive span to the first return of the depth walk to
0, error `"no balanced JSON object found"` otherwise), and behaves as
specified on the two end-to-end examples. -/
theorem balanced_object_extraction :
    (∀ s : List Char,
      extractAux s s 0 none 0 =
        match specExtract s with
        | some t => Except.ok t
        | none => Except.error "no balanced JSON object found") ∧
    extractJSONObject "Here is your answer: \x7b\"a\": \x7b\"b\": 1\x7d\x7d thanks" =
      Except.ok "\x7b\"a\": \x7b\"b\": 1\x7d\x7d" ∧
    extractJSONObject "\x7b\"a\": 1" =
      Except.error "no balanced JSON object found" :=
  ⟨extractAux_eq_specExtract, rfl, rfl⟩

/-- C8: exact match is reflexive — for every ParsedQuery `p`,
`score(p,p)` is an exact match with F1 and Jaccard 1 (its fact set is
never empty); and on two empty fact sets the set-level scorer returns
exactMatch true with F1 = 0 and Jaccard = 0 by the zero-denominator
policy. -/
theorem exact_match_reflexive (p : ParseResponse) :
    scoreAgainstGT p p = ⟨true, 1, 1, 0⟩ ∧
    scoreSets ∅ ∅ = ⟨true, 0, 0, 0⟩ := by
  refine ⟨scoreSets_self _ (flatten_nonempty p), ?_⟩
  have hJ : specJaccard (∅ : Finset String) ∅ = 0 := by
    unfold specJaccard specUnion specIntersection
    simp
  have hF : specF1 (∅ : Finset String) ∅ = 0 := by
    unfold specF1 specPrecision specRecall
    simp
  rw [scoreSets_eq]
  rw [hJ, hF, round2_zero, (setsEqual_iff ∅ ∅).mpr rfl]

/-- C9: a provider with zero evaluated queries is omitted from the
snapshot (its optional entry is `none`, not a zero-valued record), and
missing data is never a failure: with no stored runs, or no ground
truth, the result is simply the empty snapshot.  (`evalCore` is a total
function by construction.) -/
theorem providers_without_data_omitted (results : List StoredResult)
    (gtItems : List GroundTruthItem) (w : Bool) :
    ((evalCore results gtItems w).openai = none ↔
      (finalState results gtItems w).openAcc.n = 0) ∧
    ((evalCore results gtItems w).claude = none ↔
      (finalState results gtItems w).claudeAcc.n = 0) ∧
    ((evalCore [] gtItems w).openai = none ∧ (evalCore [] gtItems w).claude = none) ∧
    ((evalCore results [] w).openai = none ∧ (evalCore results [] w).claude = none) := by
  refine ⟨?_, ?_, ⟨rfl, rfl⟩, ?_, ?_⟩
  · show (if (finalState results gtItems w).openAcc.n > 0
        then some (finalState results gtItems w).openAcc.metrics else none) = none ↔ _
    rcases Nat.eq_zero_or_pos (finalState results gtItems w).openAcc.n with h | h
    · simp [h]
    · simp [h, Nat.pos_iff_ne_zero.mp h]
  · show (if (finalState results gtItems w).claudeAcc.n > 0
        then some (finalState results gtItems w).claudeAcc.metrics else none) = none ↔ _
    rcases Nat.eq_zero_or_pos (finalState results gtItems w).claudeAcc.n with h | h
    · simp [h]
    · simp [h, Nat.pos_iff_ne_zero.mp h]
  · show (if (finalState results [] w).openAcc.n > 0
        then some (finalState results [] w).openAcc.metrics else none) = none
    rw [finalState_nil_gt]
    rfl
  · show (if (finalState results [] w).claudeAcc.n > 0
        then some (finalState results [] w).claudeAcc.metrics else none) = none
    rw [finalState_nil_gt]
    rfl

/-- C10: every flattened ParsedQuery contains exactly one
`family_friendly` fact, so both fact sets of any scored pair are
non-empty, the union is positive, the zero-denominator fallbacks of
`safeDiv` and of Jaccard are unreachable on real inputs, and an exact
match always reports F1 = 1 (the "both empty" degenerate case cannot
arise). -/
theorem flatten_never_empty (p g : ParseResponse) :
    fact "family_friendly" (fmtBool p.familyFriendly) ∈ flatten p ∧
    (flatten p).filter (fun k => slotNameOf k = "family_friendly") =
      {fact "family_friendly" (fmtBool p.familyFriendly)} ∧
    1 ≤ (flatten p).card ∧
    1 ≤ (flatten p).card + (flatten g).card -
        ((flatten p).filter (fun k => k ∈ flatten g)).card ∧
    safeDiv (((flatten p).filter (fun k => k ∈ flatten g)).card) (flatten p).card =
      (((flatten p).filter (fun k => k ∈ flatten g)).card : ℚ) / ((flatten p).card : ℚ) ∧
    safeDiv (((flatten p).filter (fun k => k ∈ flatten g)).card) (flatten g).card =
      (((flatten p).filter (fun k => k ∈ flatten g)).card : ℚ) / ((flatten g).card : ℚ) ∧
    (scoreAgainstGT p g).jaccard =
      round2 ((((flatten p).filter (fun k => k ∈ flatten g)).card : ℚ) /
        (((flatten p).card + (flatten g).card -
          ((flatten p).filter (fun k => k ∈ flatten g)).card : Nat) : ℚ)) ∧
    ((scoreAgainstGT p g).exactMatch = false ∨ (scoreAgainstGT p g).f1 = 1) := by
  have hpc := flatten_card_pos p
  have hgc := flatten_card_pos g
  have hsub : (flatten p).filter (fun k => k ∈ flatten g) ⊆ flatten g := by
    intro k hk
    exact (Finset.mem_filter.mp hk).2
  have hle : ((flatten p).filter (fun k => k ∈ flatten g)).card ≤ (flatten g).card :=
    Finset.card_le_card hsub
  have hu : 1 ≤ (flatten p).card + (flatten g).card -
      ((flatten p).filter (fun k => k ∈ flatten g)).card := by omega
  refine ⟨famFact_mem_flatten p, flatten_family_filter p, hpc, hu, ?_, ?_, ?_, ?_⟩
  · unfold safeDiv
    rw [if_neg (by omega)]
  · unfold safeDiv
    rw [if_neg (by omega)]
  · show (scoreSets (flatten p) (flatten g)).jaccard = _
    simp only [scoreSets]
    congr 1
    rw [if_pos (by omega)]
  · by_cases hm : flatten p = flatten g
    · right
      have : scoreAgainstGT p g = ⟨true, 1, 1, 0⟩ := by
        show scoreSets (flatten p) (flatten g) = _
        rw [hm]
        exact scoreSets_self _ (flatten_nonempty g)
      rw [this]
    · left
      show setsEqual (flatten p) (flatten g) = false
      rcases Bool.eq_false_or_eq_true (setsEqual (flatten p) (flatten g)) with h | h
      · exact absurd ((setsEqual_iff _ _).mp h) hm
      · exact h

/-- A parse with tags in one category and one unsupported entry. -/
def permParse : ParseResponse :=
  { parse0 with
    uiFilters := { uiNone with meals := ["halbpension", "all inclusive"] }
    unsupportedCriteria := ["sauna"] }

/-- The same filters with the meals tags swapped. -/
def permUi : UiFilters := { uiNone with meals := ["all inclusive", "halbpension"] }

/-- Witness for the order-insensitivity claim at a concrete input. -/
theorem flatten_order_insensitive_witness :
    flatten { permParse with uiFilters := permUi, unsupportedCriteria := ["sauna"] } =
      flatten permParse :=
  (flatten_order_insensitive).1 permParse permUi ["sauna"]
    (List.Perm.swap _ _ _) (List.Perm.refl _) (List.Perm.refl _) (List.Perm.refl _)
    (List.Perm.refl _) (List.Perm.refl _) (List.Perm.refl _) (List.Perm.refl _)
    (List.Perm.refl _) (List.Perm.refl _) (List.Perm.refl _) (List.Perm.refl _)
    (List.Perm.refl _) (List.Perm.refl _) (List.Perm.refl _) (List.Perm.refl _)
    (List.Perm.refl _) (List.Perm.refl _) (List.Perm.refl _)

/-- A ground-truth entry whose query matches no stored run below. -/
def gA : GroundTruthItem := ⟨"andere", parse0, false, []⟩

/-- A run whose query has no ground-truth entry. -/
def runX : StoredResult := ⟨"nicht vorhanden", ⟨none, none⟩, 3, 1⟩

/-- Two ground-truth entries with the same query text. -/
def g1 : GroundTruthItem := ⟨"frage", parse0, false, []⟩

def g2 : GroundTruthItem := ⟨"frage", gtR, false, []⟩

/-- A run matching the duplicated query, with an OpenAI parse. -/
def runQ : StoredResult := ⟨"frage", ⟨some predR, none⟩, 5, 2⟩

/-- Witness for the report-builder join claim at concrete inputs: the
unmatched run is skipped whole; the duplicated query resolves to the
later entry; the matched run adds exactly one query scored against that
entry's truth. -/
theorem report_builder_join_witness :
    processRun (gtMapOf [gA]) false initEvalState runX = initEvalState ∧
    gtMapOf [g1, g2] "frage" = some g2 ∧
    (processRun (gtMapOf [g1, g2]) false initEvalState runQ).openAcc.n =
      initEvalState.openAcc.n + 1 ∧
    (processRun (gtMapOf [g1, g2]) false initEvalState runQ).openAcc.sumF1 =
      initEvalState.openAcc.sumF1 + (scoreAgainstGT predR g2.truth).f1 := by
  have hlook : gtMapOf [g1, g2] runQ.query = some g2 :=
    ((report_builder_join [g1, g2] false initEvalState runQ).2.1 runQ.query).trans
      (by decide)
  refine ⟨?_, ?_, ?_, ?_⟩
  · exact (report_builder_join [gA] false initEvalState runX).1 (by decide)
  · exact hlook
  · exact ((report_builder_join [g1, g2] false initEvalState runQ).2.2.1
      g2 predR hlook rfl).1
  · exact ((report_builder_join [g1, g2] false initEvalState runQ).2.2.1
      g2 predR hlook rfl).2
